import Mathlib

/-!
Verification of the dataverse-market-insights ETL pipeline.

Shallow embedding of the pipeline scripts:
  * `scripts/transform_coingecko.py` — `transform_data`, `get_latest_bronze_file`,
    `upload_to_silver` key construction, `main` metadata logging;
  * `scripts/extract_coingecko.py` — `fetch_crypto_data` retry behaviour,
    `main` step sequencing, S3 key construction, metadata logging;
  * `src/extractors/extract_coingecko.py` — its `main` (which never logs metadata);
  * `src/utils/metadata_logger.py` — the shape of an `extraction_logs` row.

Dataframes are lists of rows; nullable float columns are `Option ℚ`.
-/

/-- One bronze-layer market record: the columns selected by the extraction
script (`id, symbol, current_price, market_cap, total_volume, timestamp`).
Numeric columns are nullable floats in pandas, modelled as `Option ℚ`. -/
structure BronzeRow where
  id : String
  symbol : String
  current_price : Option ℚ
  market_cap : Option ℚ
  total_volume : Option ℚ
  timestamp : String
deriving DecidableEq

/-- One silver-layer record: the bronze columns plus the three columns added
by `transform_data` (`price_to_volume_ratio`, `market_cap_category`,
`processed_timestamp`). -/
structure SilverRow where
  base : BronzeRow
  price_to_volume_ratio : Option ℚ
  market_cap_category : Option String
  processed_timestamp : String
deriving DecidableEq

/-- `df.drop_duplicates(subset=["id"])` with pandas' default `keep="first"`:
keep a row iff its `id` has not been seen earlier. `seen` is the accumulator
of ids already kept. -/
def dropDuplicatesById : List BronzeRow → List String → List BronzeRow
  | [], _ => []
  | r :: rs, seen =>
    if r.id ∈ seen then dropDuplicatesById rs seen
    else r :: dropDuplicatesById rs (r.id :: seen)

/-- `df.dropna(subset=["current_price", "market_cap"])` keeps a row iff both
columns are non-null. -/
def nonNullPM (r : BronzeRow) : Bool :=
  r.current_price.isSome && r.market_cap.isSome

/-- `df["current_price"] / df["total_volume"].replace(0, pd.NA)`: the volume 0
is first replaced by NA, then the division propagates NA from either operand. -/
def priceToVolumeRatio (price volume : Option ℚ) : Option ℚ :=
  match price, volume with
  | some p, some v => if v = 0 then none else some (p / v)
  | _, _ => none

/-- `pd.cut(market_cap, bins=[0, 1e9, 10e9, 100e9, 1e12], labels=[...])` with
the default `right=True`: half-open intervals `(lo, hi]`, values outside all
bins map to NA. -/
def marketCapCategory (m : ℚ) : Option String :=
  if 0 < m ∧ m ≤ 1000000000 then some "Small Cap"
  else if 1000000000 < m ∧ m ≤ 10000000000 then some "Mid Cap"
  else if 10000000000 < m ∧ m ≤ 100000000000 then some "Large Cap"
  else if 100000000000 < m ∧ m ≤ 1000000000000 then some "Mega Cap"
  else none

/-- The column assignments of `transform_data` applied to one surviving row:
the bronze columns are kept and the three derived columns are attached.
`ts` is the `processed_timestamp` string computed once per run. -/
def enrichRow (ts : String) (r : BronzeRow) : SilverRow :=
  ⟨r, priceToVolumeRatio r.current_price r.total_volume,
    r.market_cap.bind marketCapCategory, ts⟩

/-- `transform_data(df)`: drop duplicate ids (first occurrence wins), then
drop rows with null `current_price` or `market_cap`, then add the
`price_to_volume_ratio`, `market_cap_category` and `processed_timestamp`
columns. -/
def transform_data (ts : String) (df : List BronzeRow) : List SilverRow :=
  ((dropDuplicatesById df []).filter nonNullPM).map (enrichRow ts)

/-- The characters of a string after its last `'/'` (the whole string when no
`'/'` occurs): `os.path.basename` on the slash-separated paths this pipeline
builds. -/
def basename (s : String) : String :=
  String.mk (s.data.foldl (fun a c => if c = '/' then [] else a ++ [c]) [])

/-- The characters of a string after its last `'_'` (the whole string when no
`'_'` occurs): the value of `x.split("_")[-1]`, the sort key used by
`get_latest_bronze_file`. -/
def afterLastUnderscore (s : String) : String :=
  String.mk (s.data.foldl (fun a c => if c = '_' then [] else a ++ [c]) [])

/-- `x.endswith(".csv")`. -/
def endsWithCsv (s : String) : Bool :=
  match s.data.reverse with
  | 'v' :: 's' :: 'c' :: '.' :: _ => true
  | _ => false

/-- Python string `<`: lexicographic comparison by code point. -/
def pyStrLt : List Char → List Char → Bool
  | [], [] => false
  | [], _ :: _ => true
  | _ :: _, [] => false
  | a :: as, b :: bs =>
    if a.toNat < b.toNat then true
    else if b.toNat < a.toNat then false
    else pyStrLt as bs

/-- `get_latest_bronze_file`: among the listed keys ending in `.csv`, return
`max(files, key=lambda x: x.split("_")[-1])` (Python `max` keeps the earliest
maximal element); raise `FileNotFoundError` when no `.csv` key exists. -/
def get_latest_bronze_file (keys : List String) : Except String String :=
  match keys.filter endsWithCsv with
  | [] => Except.error "No Bronze CSV files found in S3."
  | f :: fs =>
    Except.ok (fs.foldl (fun acc x =>
      if pyStrLt (afterLastUnderscore acc).data (afterLastUnderscore x).data
      then x else acc) f)

/-- The silver S3 key built by `upload_to_silver`:
`f"silver/crypto/ingest_date=\x7bingest_date\x7d/\x7bfilename\x7d"`. -/
def silver_s3_key (ingest_date filename : String) : String :=
  "silver/crypto/ingest_date=" ++ ingest_date ++ "/" ++ filename

/-- The bronze S3 key built by the extraction `main`:
`f"bronze/crypto/ingest_date=\x7bingest_date\x7d/\x7bos.path.basename(filename)\x7d"`,
where `filename` is the local path the CSV was saved under. -/
def bronze_s3_key (ingest_date filename : String) : String :=
  "bronze/crypto/ingest_date=" ++ ingest_date ++ "/" ++ basename filename

/-- The documented key pattern, written from the spec's words:
`\x7blayer\x7d/crypto/ingest_date=<date>/<filename>`. -/
def layerKeyPattern (layer date file : String) : String :=
  layer ++ "/crypto/ingest_date=" ++ date ++ "/" ++ file

/-- Outcome of one invocation of the undecorated fetch body: the parsed
payload (abstracted to its record count), a raised
`requests.exceptions.HTTPError`, or any other raised exception. -/
inductive FetchOutcome where
  | ok (records : Nat)
  | httpError (msg : String)
  | otherError (msg : String)
deriving DecidableEq

/-- How the fetch body turns an HTTP status into an outcome: status 429
raises `HTTPError` after the `Retry-After` wait; `response.raise_for_status()`
raises `HTTPError` for every 4xx/5xx status; otherwise the JSON payload is
returned. -/
def outcomeOfStatus (status : Nat) (msg : String) (records : Nat) : FetchOutcome :=
  if status = 429 then FetchOutcome.httpError "Server throttled request - retrying after wait."
  else if 400 ≤ status ∧ status < 600 then FetchOutcome.httpError msg
  else FetchOutcome.ok records

/-- The tenacity loop of `@retry(stop=stop_after_attempt(3),
retry=retry_if_exception_type(HTTPError))`: attempt `i` runs; an `HTTPError`
is retried while attempts remain, any other exception or a success ends the
loop. Returns the number of calls made and the final outcome. -/
def retryGo (attempts : Nat → FetchOutcome) : Nat → Nat → Nat × FetchOutcome
  | i, remaining + 1 =>
    match attempts i with
    | FetchOutcome.ok d => (i + 1, FetchOutcome.ok d)
    | FetchOutcome.otherError m => (i + 1, FetchOutcome.otherError m)
    | FetchOutcome.httpError m =>
      if remaining = 0 then (i + 1, FetchOutcome.httpError m)
      else retryGo attempts (i + 1) remaining
  | i, 0 => (i, FetchOutcome.otherError "unreachable: stop_after_attempt(0)")

/-- `fetch_crypto_data` as decorated: up to 3 attempts. -/
def fetch_crypto_data (attempts : Nat → FetchOutcome) : Nat × FetchOutcome :=
  retryGo attempts 0 3

/-- One row of the `extraction_logs` table as inserted by `log_metadata`
(`metadata_logger.py`): run timestamp, source name, record count, status,
S3 path, runtime. -/
structure LogRow where
  run_timestamp : String
  source_api : String
  record_count : Nat
  status : String
  s3_path : Option String
  runtime_seconds : ℚ
deriving DecidableEq

/-- The steps of the extraction `main` that run before the success log call,
in program order: fetch, dataframe construction, validation, local save,
S3 upload. -/
inductive ExtractStep where
  | fetch | build | validate | save | upload
deriving DecidableEq

/-- Program order of the extraction steps. -/
def extractOrder : List ExtractStep :=
  [ExtractStep.fetch, ExtractStep.build, ExtractStep.validate,
   ExtractStep.save, ExtractStep.upload]

/-- The first step (in the given order) whose outcome is an exception,
with its message: where control jumps to the `except` block. -/
def firstFailure (oc : ExtractStep → Option String) :
    List ExtractStep → Option (ExtractStep × String)
  | [] => none
  | st :: rest =>
    match oc st with
    | some m => some (st, m)
    | none => firstFailure oc rest

/-- Rows appended to `extraction_logs` by one run of the extraction `main`
(`scripts/extract_coingecko.py`): on success one SUCCESS row with the record
count and the S3 key; if any step raises, the `except` block appends one
`"FAILED: ..."` row with record count 0 and no path. -/
def extract_main_logs (oc : ExtractStep → Option String) (ts : String)
    (n : Nat) (key : String) (rt : ℚ) : List LogRow :=
  match firstFailure oc extractOrder with
  | none => [⟨ts, "CoinGecko", n, "SUCCESS", some key, rt⟩]
  | some (_, m) => [⟨ts, "CoinGecko", 0, "FAILED: " ++ m, none, rt⟩]

/-- Rows appended to `extraction_logs` by one run of the transform `main`
(`scripts/transform_coingecko.py`): one SUCCESS row on success; the `except`
block only writes to the log file, so a failed run appends nothing. -/
def transform_main_logs (failed : Bool) (ts : String) (n : Nat)
    (path : String) (rt : ℚ) : List LogRow :=
  if failed then [] else [⟨ts, "coingecko_silver", n, "SUCCESS", some path, rt⟩]

/-- Rows appended to `extraction_logs` by one run of the `main` of
`src/extractors/extract_coingecko.py`: it never calls `log_metadata`. -/
def extractors_main_logs (_failed : Bool) : List LogRow := []

/-- Input row used as the concrete counterexample for duplicate handling:
its `current_price` is null, so it is dropped even though its id is the
first (and only) occurrence. -/
def nullPriceRow : BronzeRow := ⟨"a", "A", none, some 1, some 1, "t"⟩

/-- Concrete row with a small market capitalization and zero volume. -/
def smallCapRow : BronzeRow := ⟨"bitcoin", "btc", some 1, some 500000000, some 0, "t"⟩

/-- Concrete row with price 3 and volume 2. -/
def ratioRow : BronzeRow := ⟨"eth", "eth", some 3, some 500000000, some 2, "t"⟩

/-- Concrete row whose market capitalization exceeds the last bin edge. -/
def hugeCapRow : BronzeRow := ⟨"huge", "h", some 1, some 2000000000000, none, "t"⟩

/-- Attempt trace used to witness the retry theorem: the first call raises
`HTTPError`, the second succeeds. -/
def wAttempts : Nat → FetchOutcome :=
  fun i => if i = 0 then FetchOutcome.httpError "throttled" else FetchOutcome.ok 10

/-- Step outcomes used to witness the failed-extraction logging theorem:
the fetch step raises. -/
def wFailOc : ExtractStep → Option String :=
  fun st => match st with
    | ExtractStep.fetch => some "boom"
    | _ => none

@[simp] theorem enrichRow_base (ts : String) (r : BronzeRow) :
    (enrichRow ts r).base = r := rfl

theorem enrichRow_category (ts : String) (r : BronzeRow) :
    (enrichRow ts r).market_cap_category = r.market_cap.bind marketCapCategory := rfl

theorem mem_transform_data (ts : String) (df : List BronzeRow) (s : SilverRow) :
    s ∈ transform_data ts df ↔
      ∃ r, r ∈ dropDuplicatesById df [] ∧ nonNullPM r = true ∧ s = enrichRow ts r := by
  constructor
  · intro hs
    simp only [transform_data] at hs
    rcases List.mem_map.1 hs with ⟨r, hr, rfl⟩
    rcases List.mem_filter.1 hr with ⟨hr1, hr2⟩
    exact ⟨r, hr1, hr2, rfl⟩
  · rintro ⟨r, hr1, hr2, rfl⟩
    simp only [transform_data]
    exact List.mem_map_of_mem _ (List.mem_filter.2 ⟨hr1, hr2⟩)

theorem dropDuplicatesById_filter_id (i : String) :
    ∀ (df : List BronzeRow) (seen : List String),
      (dropDuplicatesById df seen).filter (fun r => r.id == i)
        = if i ∈ seen then [] else (df.find? (fun r => r.id == i)).toList
  | [], seen => by
    simp [dropDuplicatesById]
  | r :: rs, seen => by
    by_cases hseen : r.id ∈ seen
    · rw [dropDuplicatesById, if_pos hseen, dropDuplicatesById_filter_id i rs seen]
      by_cases hi : i ∈ seen
      · simp [hi]
      · have hri : ¬ r.id = i := by rintro rfl; exact hi hseen
        have hbeq : (r.id == i) = false := by simp [hri]
        simp [hi, List.find?, hbeq]
    · rw [dropDuplicatesById, if_neg hseen]
      by_cases hri : r.id = i
      · subst hri
        rw [List.filter_cons_of_pos (by simp),
          dropDuplicatesById_filter_id r.id rs (r.id :: seen)]
        simp [hseen, List.find?]
      · have hir : ¬ i = r.id := fun h => hri h.symm
        have hbeq : (r.id == i) = false := by simp [hri]
        rw [List.filter_cons_of_neg (by simp [hri]),
          dropDuplicatesById_filter_id i rs (r.id :: seen)]
        simp [List.find?, hbeq, hir, List.mem_cons]

theorem dropDuplicatesById_sublist (df : List BronzeRow) :
    ∀ seen, (dropDuplicatesById df seen).Sublist df := by
  induction df with
  | nil => intro seen; simp [dropDuplicatesById]
  | cons r rs ih =>
    intro seen
    rw [dropDuplicatesById]
    by_cases h : r.id ∈ seen
    · rw [if_pos h]; exact (ih seen).cons r
    · rw [if_neg h]; exact (ih (r.id :: seen)).cons₂ r

theorem marketCapCategory_small_iff (m : ℚ) :
    marketCapCategory m = some "Small Cap" ↔ 0 < m ∧ m ≤ 1000000000 := by
  unfold marketCapCategory
  split_ifs with h1 h2 h3 h4 <;> simpa using h1

theorem marketCapCategory_mid_iff (m : ℚ) :
    marketCapCategory m = some "Mid Cap" ↔ 1000000000 < m ∧ m ≤ 10000000000 := by
  unfold marketCapCategory
  split_ifs with h1 h2 h3 h4
  · obtain ⟨h1a, h1b⟩ := h1
    simp only [Option.some.injEq]
    constructor
    · intro h; exact absurd h (by decide)
    · rintro ⟨ha, hb⟩; exfalso; linarith
  · simpa using h2
  · simpa using h2
  · simpa using h2
  · simpa using h2

theorem marketCapCategory_large_iff (m : ℚ) :
    marketCapCategory m = some "Large Cap" ↔ 10000000000 < m ∧ m ≤ 100000000000 := by
  unfold marketCapCategory
  split_ifs with h1 h2 h3 h4
  · obtain ⟨h1a, h1b⟩ := h1
    simp only [Option.some.injEq]
    constructor
    · intro h; exact absurd h (by decide)
    · rintro ⟨ha, hb⟩; exfalso; linarith
  · obtain ⟨h2a, h2b⟩ := h2
    simp only [Option.some.injEq]
    constructor
    · intro h; exact absurd h (by decide)
    · rintro ⟨ha, hb⟩; exfalso; linarith
  · simpa using h3
  · simpa using h3
  · simpa using h3

theorem marketCapCategory_mega_iff (m : ℚ) :
    marketCapCategory m = some "Mega Cap" ↔ 100000000000 < m ∧ m ≤ 1000000000000 := by
  unfold marketCapCategory
  split_ifs with h1 h2 h3 h4
  · obtain ⟨h1a, h1b⟩ := h1
    simp only [Option.some.injEq]
    constructor
    · intro h; exact absurd h (by decide)
    · rintro ⟨ha, hb⟩; exfalso; linarith
  · obtain ⟨h2a, h2b⟩ := h2
    simp only [Option.some.injEq]
    constructor
    · intro h; exact absurd h (by decide)
    · rintro ⟨ha, hb⟩; exfalso; linarith
  · obtain ⟨h3a, h3b⟩ := h3
    simp only [Option.some.injEq]
    constructor
    · intro h; exact absurd h (by decide)
    · rintro ⟨ha, hb⟩; exfalso; linarith
  · simpa using h4
  · simpa using h4

theorem fetch_crypto_data_eq (attempts : Nat → FetchOutcome) :
    fetch_crypto_data attempts =
      match attempts 0, attempts 1, attempts 2 with
      | FetchOutcome.ok d, _, _ => (1, FetchOutcome.ok d)
      | FetchOutcome.otherError m, _, _ => (1, FetchOutcome.otherError m)
      | FetchOutcome.httpError _, FetchOutcome.ok d, _ => (2, FetchOutcome.ok d)
      | FetchOutcome.httpError _, FetchOutcome.otherError m, _ =>
        (2, FetchOutcome.otherError m)
      | FetchOutcome.httpError _, FetchOutcome.httpError _, o => (3, o) := by
  rcases h0 : attempts 0 with d0 | m0 | m0 <;>
    rcases h1 : attempts 1 with d1 | m1 | m1 <;>
      rcases h2 : attempts 2 with d2 | m2 | m2 <;>
        simp [fetch_crypto_data, retryGo, h0, h1, h2]

theorem foldl_basename_no_slash :
    ∀ (cs : List Char), '/' ∉ cs → ∀ acc : List Char,
      cs.foldl (fun a c => if c = '/' then [] else a ++ [c]) acc = acc ++ cs
  | [], _, acc => by simp
  | c :: rest, h, acc => by
    have hc : ¬ c = '/' := by rintro rfl; exact h (List.mem_cons_self _ _)
    rw [List.foldl_cons, if_neg hc,
      foldl_basename_no_slash rest (fun hr => h (List.mem_cons_of_mem _ hr)) (acc ++ [c])]
    simp

theorem basename_data_bronze (f : String) (hf : '/' ∉ f.data) :
    basename ("data/bronze/" ++ f) = f := by
  unfold basename
  have hdata : ("data/bronze/" ++ f).data = "data/bronze/".data ++ f.data := rfl
  rw [hdata, List.foldl_append]
  have hpre : List.foldl (fun a c => if c = '/' then [] else a ++ [c]) ([] : List Char)
      "data/bronze/".data = [] := rfl
  rw [hpre, foldl_basename_no_slash f.data hf []]
  rw [List.nil_append]

/-- C1 (counterexample): the input `[nullPriceRow]` contains a record whose
id is `"a"`, yet `transform_data` outputs no row at all — in particular no
row for the distinct input id `"a"` — because duplicates are dropped before
null prices, and the sole (first) occurrence of `"a"` has a null
`current_price`. -/
theorem C1_counterexample :
    nullPriceRow.id = "a" ∧ transform_data "p" [nullPriceRow] = [] := by
  constructor
  · rfl
  · simp [transform_data, dropDuplicatesById, nonNullPM, nullPriceRow]

/-- C1 (amended): the output of `transform_data` contains no row with a null
`current_price` or `market_cap`; and for every id `i`, the rows of the output
whose id is `i` are exactly: the enrichment of `i`'s first occurrence in
input order when that first occurrence has non-null `current_price` and
`market_cap`, and nothing otherwise. -/
theorem C1_output_characterization (df : List BronzeRow) (ts i : String) :
    (∀ s ∈ transform_data ts df,
        s.base.current_price.isSome = true ∧ s.base.market_cap.isSome = true) ∧
    (transform_data ts df).filter (fun s => s.base.id == i)
      = (match df.find? (fun r => r.id == i) with
         | some r => if nonNullPM r then [enrichRow ts r] else []
         | none => []) := by
  constructor
  · intro s hs
    rcases (mem_transform_data ts df s).1 hs with ⟨r, -, hnn, rfl⟩
    simp only [nonNullPM, Bool.and_eq_true] at hnn
    exact ⟨hnn.1, hnn.2⟩
  · have hmap : (transform_data ts df).filter (fun s => s.base.id == i)
        = (((dropDuplicatesById df []).filter nonNullPM).filter
            (fun r => r.id == i)).map (enrichRow ts) := by
      simp only [transform_data]
      rw [List.filter_map]
      rfl
    rw [hmap, List.filter_comm, dropDuplicatesById_filter_id]
    simp only [List.not_mem_nil, if_false]
    cases hfind : df.find? (fun r => r.id == i) with
    | none => simp
    | some r =>
      by_cases hnn : nonNullPM r
      · simp [hnn]
      · simp [hnn]

/-- C1 (witness): on the single-row input `[smallCapRow]`, whose first
occurrence of id `"bitcoin"` has non-null price and capitalization, the
output rows with that id are exactly the enrichment of that row. -/
theorem C1_output_characterization_witness :
    (transform_data "p" [smallCapRow]).filter (fun s => s.base.id == "bitcoin")
      = [enrichRow "p" smallCapRow] := by
  have h := (C1_output_characterization [smallCapRow] "p" "bitcoin").2
  simpa [smallCapRow, nonNullPM, List.find?] using h

/-- C2: for every row kept by `transform_data` with capitalization `m`, the
`market_cap_category` label is `"Small Cap"` exactly when `m ∈ (0, 1e9]`,
`"Mid Cap"` exactly when `m ∈ (1e9, 10e9]`, `"Large Cap"` exactly when
`m ∈ (10e9, 100e9]`, and `"Mega Cap"` exactly when `m ∈ (100e9, 1e12]`:
each boundary value belongs to the lower tier, values just above a boundary
to the higher tier. -/
theorem C2_market_cap_tiers (df : List BronzeRow) (ts : String) (s : SilverRow)
    (hs : s ∈ transform_data ts df) (m : ℚ) (hm : s.base.market_cap = some m) :
    (s.market_cap_category = some "Small Cap" ↔ 0 < m ∧ m ≤ 1000000000) ∧
    (s.market_cap_category = some "Mid Cap" ↔
      1000000000 < m ∧ m ≤ 10000000000) ∧
    (s.market_cap_category = some "Large Cap" ↔
      10000000000 < m ∧ m ≤ 100000000000) ∧
    (s.market_cap_category = some "Mega Cap" ↔
      100000000000 < m ∧ m ≤ 1000000000000) := by
  rcases (mem_transform_data ts df s).1 hs with ⟨r, -, -, rfl⟩
  simp only [enrichRow_base] at hm
  have hcat : (enrichRow ts r).market_cap_category = marketCapCategory m := by
    rw [enrichRow_category, hm, Option.some_bind]
  rw [hcat]
  exact ⟨marketCapCategory_small_iff m, marketCapCategory_mid_iff m,
    marketCapCategory_large_iff m, marketCapCategory_mega_iff m⟩

/-- C2 (witness): the kept row with capitalization `5e8 ∈ (0, 1e9]` is
labelled `"Small Cap"`. -/
theorem C2_market_cap_tiers_witness :
    (enrichRow "p" smallCapRow).market_cap_category = some "Small Cap" :=
  ((C2_market_cap_tiers [smallCapRow] "p" (enrichRow "p" smallCapRow)
      (by simp [transform_data, dropDuplicatesById, nonNullPM, smallCapRow])
      500000000 rfl).1).mpr (by norm_num)

/-- C3: for every row kept by `transform_data` with price `p` and volume `v`,
the `price_to_volume_ratio` column is `p / v` when `v` is nonzero, and null
(no exception) when `v` is zero. -/
theorem C3_price_volume_ratio (df : List BronzeRow) (ts : String) (s : SilverRow)
    (hs : s ∈ transform_data ts df) (p v : ℚ)
    (hp : s.base.current_price = some p) (hv : s.base.total_volume = some v) :
    (v ≠ 0 → s.price_to_volume_ratio = some (p / v)) ∧
    (v = 0 → s.price_to_volume_ratio = none) := by
  rcases (mem_transform_data ts df s).1 hs with ⟨r, -, -, rfl⟩
  simp only [enrichRow_base] at hp hv
  constructor <;> intro h <;>
    simp [enrichRow, priceToVolumeRatio, hp, hv, h]

/-- C3 (witness): the kept row with price 3 and volume 2 gets ratio `3 / 2`. -/
theorem C3_price_volume_ratio_witness :
    (enrichRow "p" ratioRow).price_to_volume_ratio = some ((3 : ℚ) / 2) :=
  (C3_price_volume_ratio [ratioRow] "p" (enrichRow "p" ratioRow)
      (by simp [transform_data, dropDuplicatesById, nonNullPM, ratioRow])
      3 2 rfl rfl).1 (by norm_num)

/-- C4 (code-bug evidence): on a bronze listing holding a file from
2025-01-02 01:00:00 and a file from 2025-01-01 23:00:00, the code returns the
2025-01-01 key — the older partition — because its sort key
`x.split("_")[-1]` is only `"230000.csv"` (the `ingest_date=` path segment
itself contains an underscore, so the date lands in `split("_")[-2]`).
The second conjunct records that the 2025-01-02 file's date-and-time suffix
is lexicographically greater, i.e. the claim's specified answer is the other
key. -/
theorem C4_latest_bronze_file_bug :
    get_latest_bronze_file
      ["bronze/crypto/ingest_date=2025-01-02/crypto_data_20250102_010000.csv",
       "bronze/crypto/ingest_date=2025-01-01/crypto_data_20250101_230000.csv"]
      = Except.ok "bronze/crypto/ingest_date=2025-01-01/crypto_data_20250101_230000.csv"
    ∧ pyStrLt "20250101_230000.csv".data "20250102_010000.csv".data = true :=
  ⟨rfl, rfl⟩

/-- C5: the decorated `fetch_crypto_data` makes at most 3 calls; every
non-final call raised the retryable `HTTPError` (so only `HTTPError` is
retried); an `HTTPError` on the first call leads to at least a second call,
and `HTTPError` on the first two calls to exactly three; any other exception
on the first call propagates immediately with exactly one call made.
`outcomeOfStatus` shows `HTTPError` is what HTTP error statuses raise. -/
theorem C5_retry_policy (attempts : Nat → FetchOutcome) :
    (∀ status msg records, 400 ≤ status → status < 600 →
        ∃ m, outcomeOfStatus status msg records = FetchOutcome.httpError m) ∧
    (fetch_crypto_data attempts).1 ≤ 3 ∧
    (∀ j, j + 1 < (fetch_crypto_data attempts).1 →
        ∃ m, attempts j = FetchOutcome.httpError m) ∧
    (∀ m, attempts 0 = FetchOutcome.httpError m →
        2 ≤ (fetch_crypto_data attempts).1) ∧
    (∀ m m', attempts 0 = FetchOutcome.httpError m →
        attempts 1 = FetchOutcome.httpError m' →
        (fetch_crypto_data attempts).1 = 3) ∧
    (∀ m, attempts 0 = FetchOutcome.otherError m →
        fetch_crypto_data attempts = (1, FetchOutcome.otherError m)) := by
  have heq := fetch_crypto_data_eq attempts
  refine ⟨?_, ?_, ?_, ?_, ?_, ?_⟩
  · intro status msg records h4 h6
    by_cases hs : status = 429
    · exact ⟨"Server throttled request - retrying after wait.",
        by rw [outcomeOfStatus, if_pos hs]⟩
    · exact ⟨msg, by rw [outcomeOfStatus, if_neg hs, if_pos ⟨h4, h6⟩]⟩
  · rcases h0 : attempts 0 <;> rcases h1 : attempts 1 <;>
      simp only [h0, h1] at heq <;> rw [heq] <;> norm_num
  · intro j hj
    rcases h0 : attempts 0 with d0 | m0 | m0 <;>
      rcases h1 : attempts 1 with d1 | m1 | m1 <;>
        simp only [h0, h1] at heq <;> rw [heq] at hj <;> norm_num at hj
    all_goals first
      | (have hj0 : j = 0 := by omega
         subst hj0
         exact ⟨_, h0⟩)
      | (have hj01 : j = 0 ∨ j = 1 := by omega
         rcases hj01 with rfl | rfl
         · exact ⟨_, h0⟩
         · exact ⟨_, h1⟩)
  · intro m hm
    rcases h1 : attempts 1 <;> simp only [hm, h1] at heq <;>
      rw [heq] <;> norm_num
  · intro m m' hm hm'
    simp only [hm, hm'] at heq
    rw [heq]
  · intro m hm
    simp only [hm] at heq
    rw [heq]

/-- C5 (witness): a trace whose first call raises `HTTPError` is retried, so
at least two calls are made. -/
theorem C5_retry_policy_witness :
    2 ≤ (fetch_crypto_data wAttempts).1 :=
  (C5_retry_policy wAttempts).2.2.2.1 "throttled" rfl

/-- C6: for every ingest date `d` and output filename `f` (no slash in `f`),
the extraction step's key — built from the local path `data/bronze/<f>` via
`os.path.basename` — is exactly `bronze/crypto/ingest_date=d/f`, and the
transform step's key is exactly `silver/crypto/ingest_date=d/f`, both
matching the documented `\x7blayer\x7d/crypto/ingest_date=<date>/<filename>`
pattern. -/
theorem C6_s3_key_pattern (d f : String) (hf : '/' ∉ f.data) :
    bronze_s3_key d ("data/bronze/" ++ f) = layerKeyPattern "bronze" d f ∧
    silver_s3_key d f = layerKeyPattern "silver" d f := by
  constructor
  · unfold bronze_s3_key layerKeyPattern
    rw [basename_data_bronze f hf]
    rfl
  · rfl

/-- C6 (witness): the keys for a concrete date and filename. -/
theorem C6_s3_key_pattern_witness :
    bronze_s3_key "2025-01-01" ("data/bronze/" ++ "crypto_data_20250101_000000.csv")
        = layerKeyPattern "bronze" "2025-01-01" "crypto_data_20250101_000000.csv" ∧
    silver_s3_key "2025-01-01" "crypto_data_20250101_000000.csv"
        = layerKeyPattern "silver" "2025-01-01" "crypto_data_20250101_000000.csv" :=
  C6_s3_key_pattern "2025-01-01" "crypto_data_20250101_000000.csv" (by decide)

/-- C7: whenever any of the fetch, dataframe-construction, validation, save
or upload steps of the extraction `main` raises (message `m`), exactly one
row is appended to `extraction_logs`, with status `"FAILED: " ++ m`, record
count 0 and no S3 path. -/
theorem C7_failed_extraction_log (oc : ExtractStep → Option String)
    (ts key : String) (n : Nat) (rt : ℚ) (st : ExtractStep) (m : String)
    (h : firstFailure oc extractOrder = some (st, m)) :
    extract_main_logs oc ts n key rt
      = [⟨ts, "CoinGecko", 0, "FAILED: " ++ m, none, rt⟩] := by
  simp [extract_main_logs, h]

/-- C7 (witness): a run whose fetch step raises `"boom"` logs exactly the one
FAILED row. -/
theorem C7_failed_extraction_log_witness :
    extract_main_logs wFailOc "2025-01-01 00:00:00" 7 "k" 0
      = [⟨"2025-01-01 00:00:00", "CoinGecko", 0, "FAILED: " ++ "boom", none, 0⟩] :=
  C7_failed_extraction_log wFailOc "2025-01-01 00:00:00" "k" 7 0
    ExtractStep.fetch "boom" rfl

/-- C8 (counterexample): a failed run of the transform `main` appends no
`extraction_logs` row at all — its `except` block only writes to the log
file — so "every pipeline invocation appends exactly one row" is false. -/
theorem C8_counterexample :
    ¬ (transform_main_logs true "2025-01-01 00:00:00" 0 "s3://silver/k" 0).length = 1 := by
  simp [transform_main_logs]

/-- C8 (amended): a run of the extraction `main`
(`scripts/extract_coingecko.py`) appends exactly one row whether it succeeds
or fails; a run of the transform `main` appends exactly one row when it
succeeds and none when it fails; the `main` of
`src/extractors/extract_coingecko.py` never appends a row. -/
theorem C8_one_log_row_per_invocation :
    (∀ oc ts n key rt, (extract_main_logs oc ts n key rt).length = 1) ∧
    (∀ ts n path rt, (transform_main_logs false ts n path rt).length = 1) ∧
    (∀ ts n path rt, (transform_main_logs true ts n path rt).length = 0) ∧
    (∀ b, (extractors_main_logs b).length = 0) := by
  refine ⟨?_, ?_, ?_, ?_⟩
  · intro oc ts n key rt
    unfold extract_main_logs
    cases firstFailure oc extractOrder with
    | none => rfl
    | some p => cases p with | mk st m => rfl
  · intro ts n path rt; rfl
  · intro ts n path rt; rfl
  · intro b; rfl

/-- C9: every row kept by `transform_data` keeps all its original columns
unchanged and the kept rows appear in input order (the projection to the
bronze columns is a sublist of the input); each output row is exactly its
bronze base plus the three derived columns of `enrichRow`, so no other
column is added or altered. -/
theorem C9_frame (df : List BronzeRow) (ts : String) :
    ((transform_data ts df).map SilverRow.base).Sublist df ∧
    ∀ s ∈ transform_data ts df, s = enrichRow ts s.base := by
  constructor
  · have h1 : (transform_data ts df).map SilverRow.base
        = (dropDuplicatesById df []).filter nonNullPM := by
      simp only [transform_data, List.map_map]
      have h2 : SilverRow.base ∘ enrichRow ts = id := funext fun r => rfl
      rw [h2, List.map_id]
    rw [h1]
    exact ((dropDuplicatesById df []).filter_sublist).trans
      (dropDuplicatesById_sublist df [])
  · intro s hs
    rcases (mem_transform_data ts df s).1 hs with ⟨r, -, -, rfl⟩
    rfl

/-- C9 (witness): on the concrete one-row input, the projection of the output
to the bronze columns is a sublist of the input. -/
theorem C9_frame_witness :
    ((transform_data "p" [smallCapRow]).map SilverRow.base).Sublist [smallCapRow] :=
  (C9_frame [smallCapRow] "p").1

/-- C10: a row whose `market_cap` lies outside `(0, 1e12]` (zero, negative,
or above `1e12`) is still kept by `transform_data` — provided it is its id's
first occurrence and its price and capitalization are non-null — and its
`market_cap_category` is null; no exception is raised, and the category
function only ever produces the four tier labels or null (no fifth label
exists). -/
theorem C10_out_of_range_cap (df : List BronzeRow) (ts : String)
    (r : BronzeRow) (m : ℚ)
    (hfind : df.find? (fun x => x.id == r.id) = some r)
    (hp : r.current_price.isSome = true) (hm : r.market_cap = some m)
    (hout : m ≤ 0 ∨ 1000000000000 < m) :
    enrichRow ts r ∈ transform_data ts df ∧
    (enrichRow ts r).market_cap_category = none ∧
    ∀ m' : ℚ, marketCapCategory m' = none ∨
      marketCapCategory m' = some "Small Cap" ∨
      marketCapCategory m' = some "Mid Cap" ∨
      marketCapCategory m' = some "Large Cap" ∨
      marketCapCategory m' = some "Mega Cap" := by
  have hnn : nonNullPM r = true := by simp [nonNullPM, hp, hm]
  refine ⟨?_, ?_, ?_⟩
  · have hfilter : (dropDuplicatesById df []).filter (fun x => x.id == r.id) = [r] := by
      rw [dropDuplicatesById_filter_id]
      simp [hfind]
    have hmem : r ∈ dropDuplicatesById df [] := by
      have : r ∈ (dropDuplicatesById df []).filter (fun x => x.id == r.id) := by
        rw [hfilter]; exact List.mem_singleton_self r
      exact List.mem_of_mem_filter this
    exact (mem_transform_data ts df _).2 ⟨r, hmem, hnn, rfl⟩
  · have hnone : marketCapCategory m = none := by
      unfold marketCapCategory
      have h9 : ¬ (0 < m ∧ m ≤ 1000000000) := by
        rcases hout with h | h <;> rintro ⟨a, b⟩ <;> linarith
      have h10 : ¬ (1000000000 < m ∧ m ≤ 10000000000) := by
        rcases hout with h | h <;> rintro ⟨a, b⟩ <;> linarith
      have h11 : ¬ (10000000000 < m ∧ m ≤ 100000000000) := by
        rcases hout with h | h <;> rintro ⟨a, b⟩ <;> linarith
      have h12 : ¬ (100000000000 < m ∧ m ≤ 1000000000000) := by
        rcases hout with h | h <;> rintro ⟨a, b⟩ <;> linarith
      rw [if_neg h9, if_neg h10, if_neg h11, if_neg h12]
    rw [enrichRow_category, hm, Option.some_bind, hnone]
  · intro m'
    unfold marketCapCategory
    split_ifs <;> simp

/-- C10 (witness): the kept row with capitalization `2e12 > 1e12` gets a null
category. -/
theorem C10_out_of_range_cap_witness :
    (enrichRow "p" hugeCapRow).market_cap_category = none :=
  (C10_out_of_range_cap [hugeCapRow] "p" hugeCapRow 2000000000000 rfl rfl rfl
    (Or.inr (by norm_num))).2.1
